import Mathlib

/-!
A shallow embedding of the core of the `Data_Validator` repository
(`src/validator/`): the validator result model (`base.py`), the five built-in
validators (`validators/*.py`), the configuration loader
(`config_loader.py`) and the validation pipeline (`pipeline.py`),
together with theorems settling the specification claims about them.

Modelling conventions:
* a pandas cell is represented by the observations the validators perform on
  it (`pd.isna`, `float(...)`, `str(...)`, its runtime class, and whether
  `pd.to_datetime` succeeds);
* Python floats are modelled as rationals;
* per-row failure reasons, which are f-strings in the source, are modelled as
  a structured inductive carrying the data interpolated into the string;
  summary `message` strings, which the claims quote literally, are kept as
  literal strings;
* raising an exception is modelled with `Except`.
-/

/-- Python runtime class of a cell value, as far as the `isinstance` checks in
`type_validator.py` can distinguish it.  `kBool` values are also instances of
`int` (Python `bool` subclasses `int`). -/
inductive PyKind where
  | kBool
  | kInt
  | kFloat
  | kStr
  | kDatetime
  | kOther
deriving DecidableEq, Repr

/-- One cell of a pandas column, given by the observations the validators make
on it: `pd.isna(val)`, the result of `float(val)` (`none` when the conversion
raises), `str(val)`, the runtime class, and whether `pd.to_datetime(val)`
succeeds. -/
structure CellValue where
  isna : Bool
  asFloat : Option ℚ
  asString : String
  pyKind : PyKind
  toDatetimeOk : Bool
deriving DecidableEq, Repr

/-- The `value` field of a failure-detail dict: the original cell (`range`,
`type`, `custom_function`), the Python `None` literal (`null_check`, the null
branch of `regex`), or the stringified text (the no-match branch of `regex`). -/
inductive DetailValue where
  | cell (v : CellValue)
  | pyNone
  | text (s : String)
deriving DecidableEq, Repr

/-- The `reason` field of a failure-detail dict.  Each constructor corresponds
to one reason f-string in the source and carries the data interpolated into
it. -/
inductive FailureReason where
  | nullValue
  | notNumeric
  | belowMin (m : ℚ)
  | notAboveMin (m : ℚ)
  | aboveMax (m : ℚ)
  | notBelowMax (m : ℚ)
  | nullNotAllowed
  | nullExceedsLimit (percent limit : ℚ)
  | nullWithinLimit (limit : ℚ)
  | nullCannotMatch
  | doesNotMatch
  | strictTypeMismatch (expected : String) (got : PyKind)
  | coercionFail (expected : String)
  | nonIntegerInt
  | cannotCoerceBool
  | customFail (msg : String)
  | customException (msg : String)
deriving DecidableEq, Repr

/-- One entry of `error_details`: `{"row": ..., "value": ..., "reason": ...}`. -/
structure FailureDetail where
  row : ℕ
  value : DetailValue
  reason : FailureReason
deriving DecidableEq, Repr

/-- The `ValidationResult` dataclass of `base.py` (the wall-clock
`duration_seconds` field is not modelled). -/
structure ValidationResult where
  validator_name : String
  passed : Bool
  total_records : ℕ
  failed_records : ℕ
  error_details : List FailureDetail
  message : String
deriving DecidableEq, Repr

/-- A pandas `DataFrame` restricted to what the validators read: named columns
of cells, all of the same length, iterated with the default positional
`RangeIndex`. -/
structure Table where
  cols : List (String × List CellValue)
  nrows : ℕ
  hlen : ∀ p ∈ cols, p.2.length = nrows

/-- `df[column]`: the named column (the pipeline checks existence before any
validator reads a column, so the empty default is never reached in a run). -/
def Table.getCol (t : Table) (c : String) : List CellValue :=
  (((t.cols.find? (fun p => p.1 == c)).map Prod.snd)).getD []

/-- `column in df.columns`. -/
def Table.hasCol (t : Table) (c : String) : Bool :=
  t.cols.any (fun p => p.1 == c)

/-- `enumerate`-style pairing of each cell with its positional row index,
starting at `k`; `series.items()` is `rowsFrom 0 series`. -/
def rowsFrom : ℕ → List CellValue → List (ℕ × CellValue)
  | _, [] => []
  | k, v :: vs => (k, v) :: rowsFrom (k + 1) vs

/-- The lower-bound check of `RangeValidator.validate`: reason when the value
fails the configured minimum, `none` otherwise. -/
def rangeCheckMin (minValue : Option ℚ) (inclusive : Bool) (x : ℚ) :
    Option FailureReason :=
  match minValue with
  | none => none
  | some m =>
    if inclusive then
      if x < m then some (.belowMin m) else none
    else
      if x ≤ m then some (.notAboveMin m) else none

/-- The upper-bound check of `RangeValidator.validate`. -/
def rangeCheckMax (maxValue : Option ℚ) (inclusive : Bool) (x : ℚ) :
    Option FailureReason :=
  match maxValue with
  | none => none
  | some m =>
    if inclusive then
      if m < x then some (.aboveMax m) else none
    else
      if m ≤ x then some (.notBelowMax m) else none

/-- Per-row classification of `RangeValidator.validate`: null fails, then
non-numeric fails, then the lower bound is checked before the upper bound. -/
def rangeRowCheck (minValue maxValue : Option ℚ) (inclusive : Bool)
    (v : CellValue) : Option FailureReason :=
  if v.isna then some .nullValue
  else
    match v.asFloat with
    | none => some .notNumeric
    | some x =>
      match rangeCheckMin minValue inclusive x with
      | some r => some r
      | none => rangeCheckMax maxValue inclusive x

/-- `RangeValidator.validate` (`range_validator.py`). -/
def rangeValidate (minValue maxValue : Option ℚ) (inclusive : Bool)
    (df : Table) (column : String) : ValidationResult :=
  let total := df.nrows
  let series := df.getCol column
  let failed := (rowsFrom 0 series).filterMap (fun p =>
    (rangeRowCheck minValue maxValue inclusive p.2).map
      (fun r => FailureDetail.mk p.1 (.cell p.2) r))
  let failedCount := failed.length
  let message :=
    if failedCount = 0 then s!"All {total} records passed"
    else s!"{failedCount}/{total} records failed range validation"
  { validator_name := "range"
    passed := failedCount == 0
    total_records := total
    failed_records := failedCount
    error_details := failed
    message := message }

/-- `percent = (num_null / total) * 100 if total else 0.0`. -/
def nullPercent (numNull total : ℕ) : ℚ :=
  if total ≠ 0 then ((numNull : ℚ) / (total : ℚ)) * 100 else 0

/-- `NullCheckValidator.validate` (`null_check_validator.py`).  `total` is
`len(series)`. -/
def nullCheckValidate (allowNull : Bool) (maxNullPercent : Option ℚ)
    (df : Table) (column : String) : ValidationResult :=
  let series := df.getCol column
  let total := series.length
  let numNull := series.countP (fun v => v.isna)
  let failed :=
    if !allowNull then
      (rowsFrom 0 series).filterMap (fun p =>
        if p.2.isna then some (FailureDetail.mk p.1 .pyNone .nullNotAllowed)
        else none)
    else
      match maxNullPercent with
      | some maxPct =>
        let percent : ℚ := nullPercent numNull total
        if percent > maxPct then
          (rowsFrom 0 series).filterMap (fun p =>
            if p.2.isna then
              some (FailureDetail.mk p.1 .pyNone (.nullExceedsLimit percent maxPct))
            else none)
        else
          (rowsFrom 0 series).filterMap (fun p =>
            if p.2.isna then
              some (FailureDetail.mk p.1 .pyNone (.nullWithinLimit maxPct))
            else none)
      | none => []
  let failedCount := failed.length
  let message :=
    if failedCount = 0 then s!"All {total} records passed"
    else s!"{failedCount}/{total} records failed null check"
  { validator_name := "null_check"
    passed := failedCount == 0
    total_records := total
    failed_records := failedCount
    error_details := failed
    message := message }

/-- An exception raised by a validator's `validate` call (an uncaught
`ValueError` in the source): the fault kinds of `regex_validator.py`,
`type_validator.py` and `custom_validator.py`. -/
inductive VError where
  | patternRequired
  | invalidPattern (pattern : String)
  | funcRequired
  | expectedTypeRequired
  | unsupportedType (t : String)
deriving DecidableEq, Repr

/-- The external `re` module as the regex validator uses it: `compile` takes
the pattern and the case-sensitivity flag (`flags = 0` when case sensitive,
`re.IGNORECASE` otherwise) and yields the truthiness of `regex.match` —
matching anchored at the start of the string — or `none` when compilation
raises `re.error`. -/
structure RegexEngine where
  compile : String → Bool → Option (String → Bool)

/-- `RegexValidator.validate` (`regex_validator.py`), parameterised by the
regex engine. -/
def regexValidate (engine : RegexEngine) (pattern : Option String)
    (caseSensitive : Bool) (df : Table) (column : String) :
    Except VError ValidationResult :=
  match pattern with
  | none => .error .patternRequired
  | some pat =>
    match engine.compile pat caseSensitive with
    | none => .error (.invalidPattern pat)
    | some matcher =>
      let total := df.nrows
      let series := df.getCol column
      let failed := (rowsFrom 0 series).filterMap (fun p =>
        if p.2.isna then some (FailureDetail.mk p.1 .pyNone .nullCannotMatch)
        else if !matcher p.2.asString then
          some (FailureDetail.mk p.1 (.text p.2.asString) .doesNotMatch)
        else none)
      let failedCount := failed.length
      let message :=
        if failedCount = 0 then s!"All {total} records passed"
        else s!"{failedCount}/{total} records failed regex validation"
      .ok
        { validator_name := "regex"
          passed := failedCount == 0
          total_records := total
          failed_records := failedCount
          error_details := failed
          message := message }

/-- `isinstance(val, int)` and friends on a cell; a Python `bool` is an
instance of `int`. -/
def kindIsInt (k : PyKind) : Bool := k == .kBool || k == .kInt

/-- Truncation toward zero, the behaviour of Python `int()` on a float. -/
def ratTrunc (q : ℚ) : ℤ := if 0 ≤ q then ⌊q⌋ else ⌈q⌉

/-- Per-row classification of `TypeValidator.validate` for an
`expected_type` already known to be one of the five supported names. -/
def typeRowCheck (expectedType : String) (strict : Bool) (v : CellValue) :
    Option FailureReason :=
  if v.isna then some .nullValue
  else if expectedType = "int" then
    if strict then
      if kindIsInt v.pyKind then none
      else some (.strictTypeMismatch "int" v.pyKind)
    else
      match v.asFloat with
      | none => some (.coercionFail "int")
      | some x => if 0 < |x - (ratTrunc x : ℚ)| then some .nonIntegerInt else none
  else if expectedType = "float" then
    if strict then
      if v.pyKind == .kFloat then none
      else some (.strictTypeMismatch "float" v.pyKind)
    else
      match v.asFloat with
      | none => some (.coercionFail "float")
      | some _ => none
  else if expectedType = "string" then
    if strict then
      if v.pyKind == .kStr then none
      else some (.strictTypeMismatch "string" v.pyKind)
    else none
  else if expectedType = "datetime" then
    if strict then
      if v.pyKind == .kDatetime then none
      else some (.strictTypeMismatch "datetime" v.pyKind)
    else
      if v.toDatetimeOk then none else some (.coercionFail "datetime")
  else
    if strict then
      if v.pyKind == .kBool then none
      else some (.strictTypeMismatch "bool" v.pyKind)
    else
      if v.pyKind == .kBool then none
      else if (kindIsInt v.pyKind || v.pyKind == .kFloat) &&
          (v.asFloat == some 0 || v.asFloat == some 1) then none
      else if v.pyKind == .kStr &&
          (v.asString.toLower == "true" || v.asString.toLower == "false" ||
           v.asString.toLower == "1" || v.asString.toLower == "0") then none
      else some .cannotCoerceBool

/-- `str(config.get("expected_type"))`: Python `str(None)` is `"None"`. -/
def pyStrOfOpt : Option String → String
  | some s => s
  | none => "None"

/-- Membership in `valid_types = {"int", "float", "string", "datetime",
"bool"}`. -/
def validTypeName (s : String) : Bool :=
  s == "int" || s == "float" || s == "string" || s == "datetime" || s == "bool"

/-- `TypeValidator.validate` (`type_validator.py`). -/
def typeValidate (expectedTypeCfg : Option String) (strict : Bool)
    (df : Table) (column : String) : Except VError ValidationResult :=
  let expectedType := (pyStrOfOpt expectedTypeCfg).toLower
  if expectedType = "" then .error .expectedTypeRequired
  else if !validTypeName expectedType then .error (.unsupportedType expectedType)
  else
    let series := df.getCol column
    let total := series.length
    let failed := (rowsFrom 0 series).filterMap (fun p =>
      (typeRowCheck expectedType strict p.2).map
        (fun r => FailureDetail.mk p.1 (.cell p.2) r))
    let failedCount := failed.length
    let message :=
      if failedCount = 0 then s!"All {total} records passed"
      else s!"{failedCount}/{total} records failed type validation"
    .ok
      { validator_name := "type"
        passed := failedCount == 0
        total_records := total
        failed_records := failedCount
        error_details := failed
        message := message }

/-- Outcome of calling the user-supplied callable on one value: a return
value's truthiness, or an exception with its text. -/
inductive FuncOutcome where
  | ret (truthy : Bool)
  | exc (msg : String)

/-- Python `error_message or "Custom validation failed"`: the default is used
when the configured message is absent or falsy (the empty string). -/
def pyOrStr (o : Option String) (d : String) : String :=
  match o with
  | some s => if s = "" then d else s
  | none => d

/-- `CustomFunctionValidator.validate` (`custom_validator.py`). -/
def customValidate (func : Option (CellValue → FuncOutcome))
    (errorMessage : Option String) (df : Table) (column : String) :
    Except VError ValidationResult :=
  match func with
  | none => .error .funcRequired
  | some f =>
    let total := df.nrows
    let series := df.getCol column
    let failed := (rowsFrom 0 series).filterMap (fun p =>
      match f p.2 with
      | .exc msg => some (FailureDetail.mk p.1 (.cell p.2) (.customException msg))
      | .ret b =>
        if !b then
          some (FailureDetail.mk p.1 (.cell p.2)
            (.customFail (pyOrStr errorMessage "Custom validation failed")))
        else none)
    let failedCount := failed.length
    let message :=
      if failedCount = 0 then s!"All {total} records passed"
      else s!"{failedCount}/{total} records failed custom validation"
    .ok
      { validator_name := "custom_function"
        passed := failedCount == 0
        total_records := total
        failed_records := failedCount
        error_details := failed
        message := message }

/-- A validator instance held by the pipeline: the validator class together
with the configuration values its `validate` method reads (via
`self.config.get(...)`, with the source's per-key defaults). -/
inductive VInstance where
  | vRange (minValue maxValue : Option ℚ) (inclusive : Bool)
  | vNullCheck (allowNull : Bool) (maxNullPercent : Option ℚ)
  | vRegex (pattern : Option String) (caseSensitive : Bool)
  | vType (expectedType : Option String) (strict : Bool)
  | vCustom (func : Option (CellValue → FuncOutcome)) (errorMessage : Option String)

/-- Dispatch of `validator.validate(df, col)` on the instance; the infallible
validators never produce an error. -/
def runValidator (engine : RegexEngine) (inst : VInstance) (df : Table)
    (column : String) : Except VError ValidationResult :=
  match inst with
  | .vRange mn mx incl => .ok (rangeValidate mn mx incl df column)
  | .vNullCheck a mp => .ok (nullCheckValidate a mp df column)
  | .vRegex pat cs => regexValidate engine pat cs df column
  | .vType et st => typeValidate et st df column
  | .vCustom f em => customValidate f em df column

/-- One prepared entry of `ValidationPipeline._validator_specs`:
`{"column": ..., "validator": <instance>}`. -/
structure PreparedSpec where
  column : String
  validator : VInstance

/-- The `PipelineResult` dataclass of `pipeline.py` (wall-clock
`duration_seconds` not modelled). -/
structure PipelineResult where
  passed : Bool
  total_validations : ℕ
  passed_validations : ℕ
  failed_validations : ℕ
  results : List ValidationResult
deriving DecidableEq, Repr

/-- A constructed `ValidationPipeline`: its prepared specs and the retained
`last_result`. -/
structure Pipeline where
  specs : List PreparedSpec
  lastResult : Option PipelineResult

/-- An exception escaping `ValidationPipeline.run`: the `InvalidConfigError`
raised for an absent column, or an uncaught validator-internal fault. -/
inductive RunError where
  | columnNotFound (column : String)
  | validatorError (e : VError)
deriving DecidableEq, Repr

/-- The loop body of `ValidationPipeline.run`: entries in specification
order; for each, the column-existence check precedes the validator call, and
the first exception aborts the traversal. -/
def runSpecs (engine : RegexEngine) (df : Table) :
    List PreparedSpec → Except RunError (List ValidationResult)
  | [] => .ok []
  | s :: rest =>
    if df.hasCol s.column then
      match runValidator engine s.validator df s.column with
      | .error e => .error (.validatorError e)
      | .ok r =>
        match runSpecs engine df rest with
        | .error e => .error e
        | .ok rs => .ok (r :: rs)
    else .error (.columnNotFound s.column)

/-- The traversal and aggregation of `ValidationPipeline.run` as a function
of the prepared specs: the per-validator results in specification order, the
pass/fail counters, and `overall_passed = (failed_count == 0)`. -/
def runAggregate (engine : RegexEngine) (df : Table)
    (specs : List PreparedSpec) : Except RunError PipelineResult :=
  match runSpecs engine df specs with
  | .error e => .error e
  | .ok results =>
    let total := specs.length
    let passedCount := results.countP (fun r => r.passed)
    let failedCount := results.countP (fun r => !r.passed)
    .ok
      { passed := failedCount == 0
        total_validations := total
        passed_validations := passedCount
        failed_validations := failedCount
        results := results }

/-- `ValidationPipeline.run` (`pipeline.py`): on success the aggregated
`PipelineResult` is produced and retained as `last_result`; on an exception
the pipeline state is returned unchanged (`last_result` is only assigned
after the loop completes). -/
def Pipeline.run (engine : RegexEngine) (p : Pipeline) (df : Table) :
    Except RunError PipelineResult × Pipeline :=
  match runAggregate engine df p.specs with
  | .error e => (.error e, p)
  | .ok pr => (.ok pr, { p with lastResult := some pr })

/-- A parameter value as it arrives from a parsed configuration document (a
JSON/YAML scalar, Python `None`, or a user-supplied callable for
programmatically built configurations). -/
inductive PValue where
  | none
  | bool (b : Bool)
  | int (n : ℤ)
  | float (q : ℚ)
  | str (s : String)
  | callable (f : CellValue → FuncOutcome)

/-- `value is None`. -/
def PValue.isNoneV : PValue → Bool
  | .none => true
  | _ => false

/-- `callable(value)`. -/
def PValue.isCallable : PValue → Bool
  | .callable _ => true
  | _ => false

/-- The Python classes appearing in the validators' parameter schemas. -/
inductive PClass where
  | pyBool
  | pyInt
  | pyFloat
  | pyStr
deriving DecidableEq, Repr

/-- `isinstance(value, c)`; a Python `bool` is an instance of `int`. -/
def pvIsInstance (v : PValue) (c : PClass) : Bool :=
  match v, c with
  | .bool _, .pyBool => true
  | .bool _, .pyInt => true
  | .int _, .pyInt => true
  | .float _, .pyFloat => true
  | .str _, .pyStr => true
  | _, _ => false

/-- The `"type"` field of one schema entry: a tuple of classes, a single
class, or `collections.abc.Callable`. -/
inductive ExpectedClass where
  | tup (ts : List PClass)
  | single (t : PClass)
  | callableTy
deriving DecidableEq, Repr

/-- One schema entry as returned by `get_required_params`: the declared
`type` (absent keys read as `None` by `meta.get`), `default`, and
`required`. -/
structure ParamMeta where
  ty : Option ExpectedClass
  default : PValue
  required : Bool

/-- A validator's parameter schema, in declaration order. -/
abbrev Schema := List (String × ParamMeta)

/-- A `params` mapping (a Python dict: association list with unique keys). -/
abbrev Params := List (String × PValue)

/-- `params[k]` / `params.get(k)`. -/
def lookupParam (ps : Params) (k : String) : Option PValue :=
  (ps.find? (fun p => p.1 == k)).map Prod.snd

/-- The parameter type check of `_validate_and_normalise_config`: skipped for
`None` values and for schema entries with no declared type; a tuple accepts a
value that is an instance of any member; `Callable` checks callability. -/
def typeCheckOk (v : PValue) (ty : Option ExpectedClass) : Bool :=
  if v.isNoneV then true
  else
    match ty with
    | Option.none => true
    | some (.tup ts) => ts.any (pvIsInstance v)
    | some (.single t) => pvIsInstance v t
    | some .callableTy => v.isCallable

/-- The `InvalidConfigError` cases of `_validate_and_normalise_config`, each
carrying the data interpolated into the corresponding message. -/
inductive ConfigFault where
  | missingColumnOrValidator (idx : ℕ)
  | missingRequired (param vname : String) (idx : ℕ) (column : String)
  | typeMismatch (param vname : String)
  | unknownParam (param vname : String) (idx : ℕ)
deriving DecidableEq, Repr

/-- An exception raised while loading or constructing from a configuration:
the generic `InvalidConfigError`, or the distinct `UnknownValidatorError`. -/
inductive LoadError where
  | invalidConfig (e : ConfigFault)
  | unknownValidator (name : String) (idx : ℕ)
deriving DecidableEq, Repr

/-- A normalized validation entry (`{"column": ..., "validator": ...,
"params": ...}`). -/
structure ValidationSpec where
  column : String
  validator : String
  params : Params

/-- One raw entry of the `validations` list: `entry.get("column")`,
`entry.get("validator")` and `entry.get("params", {})`. -/
structure RawEntry where
  column : Option String
  validator : Option String
  params : Params

/-- The schema-driven loop of `_validate_and_normalise_config`: for each
declared parameter in order, take the supplied value, or fail when it is
required with no default, or fall back to the default; then type-check it. -/
def normaliseParams (vname : String) (idx : ℕ) (column : String)
    (ps : Params) : Schema → Except LoadError Params
  | [] => .ok []
  | (pname, meta) :: rest =>
    let value? : Except LoadError PValue :=
      match lookupParam ps pname with
      | some v => .ok v
      | Option.none =>
        if meta.required && meta.default.isNoneV then
          .error (.invalidConfig (.missingRequired pname vname idx column))
        else .ok meta.default
    match value? with
    | .error e => .error e
    | .ok value =>
      if typeCheckOk value meta.ty then
        match normaliseParams vname idx column ps rest with
        | .error e => .error e
        | .ok nps => .ok ((pname, value) :: nps)
      else .error (.invalidConfig (.typeMismatch pname vname))

/-- The post-loop unknown-parameter scan: the first supplied key that is not
declared in the schema. -/
def firstUnknownParam (schema : Schema) (ps : Params) : Option String :=
  (ps.map Prod.fst).find? (fun k => !(schema.any (fun e => e.1 == k)))

/-- A registered validator as the loader and the pipeline use it: its declared
parameter schema (`get_required_params` on a zero-config instance) and its
constructor applied to a params dict (combined with the `config.get` reads
`validate` performs). -/
structure RegisteredValidator where
  schema : Schema
  make : Params → VInstance

/-- One iteration of `_validate_and_normalise_config`: structural check,
registry resolution (the distinct unknown-validator error), schema-driven
normalisation, then the unknown-parameter scan. -/
def normaliseEntry (reg : String → Option RegisteredValidator) (idx : ℕ)
    (e : RawEntry) : Except LoadError ValidationSpec :=
  match e.column, e.validator with
  | some column, some vname =>
    match reg vname with
    | Option.none => .error (.unknownValidator vname idx)
    | some rv =>
      match normaliseParams vname idx column e.params rv.schema with
      | .error er => .error er
      | .ok nps =>
        match firstUnknownParam rv.schema e.params with
        | some bad => .error (.invalidConfig (.unknownParam bad vname idx))
        | Option.none => .ok { column := column, validator := vname, params := nps }
  | _, _ => .error (.invalidConfig (.missingColumnOrValidator idx))

/-- `_validate_and_normalise_config` over the `validations` list, entries
indexed from `k`. -/
def normaliseEntriesFrom (reg : String → Option RegisteredValidator) :
    ℕ → List RawEntry → Except LoadError (List ValidationSpec)
  | _, [] => .ok []
  | k, e :: rest =>
    match normaliseEntry reg k e with
    | .error er => .error er
    | .ok spec =>
      match normaliseEntriesFrom reg (k + 1) rest with
      | .error er => .error er
      | .ok specs => .ok (spec :: specs)

/-- `_validate_and_normalise_config` applied to the whole `validations`
list. -/
def normaliseConfig (reg : String → Option RegisteredValidator)
    (entries : List RawEntry) : Except LoadError (List ValidationSpec) :=
  normaliseEntriesFrom reg 0 entries

/-- One iteration of `ValidationPipeline.__init__`: structural check,
registry resolution (fail-fast with the unknown-validator error), then
instantiation with the raw params. -/
def pipelineInitFrom (reg : String → Option RegisteredValidator) :
    ℕ → List RawEntry → Except LoadError (List PreparedSpec)
  | _, [] => .ok []
  | k, e :: rest =>
    match e.column, e.validator with
    | some column, some vname =>
      match reg vname with
      | Option.none => .error (.unknownValidator vname k)
      | some rv =>
        match pipelineInitFrom reg (k + 1) rest with
        | .error er => .error er
        | .ok specs => .ok ({ column := column, validator := rv.make e.params } :: specs)
    | _, _ => .error (.invalidConfig (.missingColumnOrValidator k))

/-- `ValidationPipeline.__init__` from a configuration's entries, yielding
the constructed pipeline with `last_result = None`. -/
def mkPipeline (reg : String → Option RegisteredValidator)
    (entries : List RawEntry) : Except LoadError Pipeline :=
  match pipelineInitFrom reg 0 entries with
  | .error er => .error er
  | .ok specs => .ok { specs := specs, lastResult := Option.none }

/-- Python truthiness of a parameter value, as used when a configured value
appears in a boolean context (`if inclusive:`, `if not allow_null:`, ...). -/
def PValue.truthy : PValue → Bool
  | .none => false
  | .bool b => b
  | .int n => !(n == 0)
  | .float q => !(q == 0)
  | .str s => !(s == "")
  | .callable _ => true

/-- A numeric parameter read by `config.get(k)` and used in comparisons
(`min_value`, `max_value`, `max_null_percent`): absent or `None` means unset.
A value of a non-numeric runtime type, which would raise at comparison time in
the source, is treated as unset (no claim exercises that corner). -/
def getNumParam (ps : Params) (k : String) : Option ℚ :=
  match lookupParam ps k with
  | some (.int n) => some (n : ℚ)
  | some (.float q) => some q
  | _ => Option.none

/-- A boolean-context parameter read by `config.get(k, d)`: the default when
absent, otherwise the value's truthiness. -/
def getBoolParam (ps : Params) (k : String) (d : Bool) : Bool :=
  match lookupParam ps k with
  | some v => v.truthy
  | Option.none => d

/-- `str(value)` on a parameter value. -/
def PValue.pyStr : PValue → String
  | .none => "None"
  | .bool b => if b then "True" else "False"
  | .int n => toString n
  | .float q => toString q
  | .str s => s
  | .callable _ => "<callable>"

/-- A string parameter read by `config.get(k)` (`pattern`, `expected_type`,
`error_message`): `None` and absent map to `none`, any other value is
stringified where the source stringifies it. -/
def getStrParam (ps : Params) (k : String) : Option String :=
  match lookupParam ps k with
  | some PValue.none => Option.none
  | some v => some v.pyStr
  | Option.none => Option.none

/-- The `validation_func` parameter: only an actual callable yields a
function. -/
def getFuncParam (ps : Params) (k : String) : Option (CellValue → FuncOutcome) :=
  match lookupParam ps k with
  | some (.callable f) => some f
  | _ => Option.none

/-- `RangeValidator.get_required_params()`. -/
def rangeSchema : Schema :=
  [("min_value", ⟨some (.tup [.pyInt, .pyFloat]), .none, false⟩),
   ("max_value", ⟨some (.tup [.pyInt, .pyFloat]), .none, false⟩),
   ("inclusive", ⟨some (.single .pyBool), .bool true, false⟩)]

/-- `NullCheckValidator.get_required_params()`. -/
def nullCheckSchema : Schema :=
  [("allow_null", ⟨some (.single .pyBool), .bool false, false⟩),
   ("max_null_percent", ⟨some (.single .pyFloat), .none, false⟩)]

/-- `RegexValidator.get_required_params()`. -/
def regexSchema : Schema :=
  [("pattern", ⟨some (.single .pyStr), .none, true⟩),
   ("case_sensitive", ⟨some (.single .pyBool), .bool true, false⟩)]

/-- `TypeValidator.get_required_params()`. -/
def typeSchema : Schema :=
  [("expected_type", ⟨some (.single .pyStr), .none, true⟩),
   ("strict", ⟨some (.single .pyBool), .bool false, false⟩)]

/-- `CustomFunctionValidator.get_required_params()`. -/
def customSchema : Schema :=
  [("validation_func", ⟨some .callableTy, .none, true⟩),
   ("error_message", ⟨some (.single .pyStr), .none, false⟩)]

/-- The `ValidatorRegistry` after the five built-in validators have
registered themselves (`validators/__init__.py`). -/
def builtinRegistry : String → Option RegisteredValidator := fun name =>
  if name = "range" then
    some ⟨rangeSchema, fun ps =>
      .vRange (getNumParam ps "min_value") (getNumParam ps "max_value")
        (getBoolParam ps "inclusive" true)⟩
  else if name = "null_check" then
    some ⟨nullCheckSchema, fun ps =>
      .vNullCheck (getBoolParam ps "allow_null" false)
        (getNumParam ps "max_null_percent")⟩
  else if name = "regex" then
    some ⟨regexSchema, fun ps =>
      .vRegex (getStrParam ps "pattern") (getBoolParam ps "case_sensitive" true)⟩
  else if name = "type" then
    some ⟨typeSchema, fun ps =>
      .vType (getStrParam ps "expected_type") (getBoolParam ps "strict" false)⟩
  else if name = "custom_function" then
    some ⟨customSchema, fun ps =>
      .vCustom (getFuncParam ps "validation_func") (getStrParam ps "error_message")⟩
  else Option.none

/-- Anchored full match of the pattern `^[a-z]+$` on a string: nonempty and
every character a lowercase letter, with uppercase letters also accepted under
`re.IGNORECASE`. -/
def lowerAlphaMatch (ignoreCase : Bool) (s : String) : Bool :=
  !s.isEmpty && s.toList.all (fun c =>
    (Char.ofNat 97 ≤ c && c ≤ Char.ofNat 122) ||
    (ignoreCase && (Char.ofNat 65 ≤ c && c ≤ Char.ofNat 90)))

/-- A model of the external `re` module restricted to what the claims
exercise: the pattern `^[a-z]+$` compiles to the matcher above, and `"("`
fails to compile (as it does in Python — an unmatched parenthesis).  Patterns
outside this fragment are treated as non-compiling; no general theorem depends
on that choice. -/
def pyReModel : RegexEngine :=
  ⟨fun pat cs =>
    if pat = "^[a-z]+$" then some (lowerAlphaMatch (!cs)) else Option.none⟩

/-- A concrete non-null numeric cell (a Python float). -/
def numCell (q : ℚ) : CellValue :=
  ⟨false, some q, toString q, .kFloat, false⟩

/-- A concrete non-null, non-numeric string cell. -/
def txtCell (s : String) : CellValue :=
  ⟨false, Option.none, s, .kStr, false⟩

/-- A concrete missing value (pandas `NaN`). -/
def nullCell : CellValue :=
  ⟨true, Option.none, "nan", .kFloat, false⟩

/-- The table `{"value": [0, 5, 10]}` of the exclusive-bounds example. -/
def rangeEdgeTable : Table :=
  ⟨[("value", [numCell 0, numCell 5, numCell 10])], 3, by decide⟩

/-- The table `{"text": ["abc", "Xyz", ""]}` of the case-sensitive regex
example. -/
def regexCaseTable : Table :=
  ⟨[("text", [txtCell "abc", txtCell "Xyz", txtCell ""])], 3, by decide⟩

/-- The table `{"text": ["ABC", "xyz"]}` of the case-insensitive regex
example. -/
def regexUpperTable : Table :=
  ⟨[("text", [txtCell "ABC", txtCell "xyz"])], 2, by decide⟩

/-- A two-row table whose column `"c"` holds one null and one number. -/
def oneNullTable : Table :=
  ⟨[("c", [nullCell, numCell 1])], 2, by decide⟩

/-- Every detail produced by a row-indexed `filterMap` over `rowsFrom k`
carries a row index at least `k`, provided the producing function tags each
detail with its own index. -/
theorem rowsFrom_filterMap_row_ge
    (h : ℕ → CellValue → Option FailureDetail)
    (hrow : ∀ i v d, h i v = some d → d.row = i) :
    ∀ (l : List CellValue) (k : ℕ) (d : FailureDetail),
      d ∈ (rowsFrom k l).filterMap (fun p => h p.1 p.2) → k ≤ d.row := by
  intro l
  induction l with
  | nil => intro k d hd; simp [rowsFrom] at hd
  | cons w l ih =>
    intro k d hd
    simp only [rowsFrom, List.filterMap_cons] at hd
    cases hh : h k w with
    | none =>
      rw [hh] at hd
      exact le_trans (Nat.le_succ k) (ih (k + 1) d hd)
    | some d0 =>
      rw [hh] at hd
      rcases List.mem_cons.mp hd with rfl | hd'
      · exact (hrow k w d hh).ge
      · exact le_trans (Nat.le_succ k) (ih (k + 1) d hd')

/-- A row of the series contributes a detail with its index if and only if
the per-row check fires on its value. -/
theorem rowsFrom_filterMap_mem_iff
    (h : ℕ → CellValue → Option FailureDetail)
    (hrow : ∀ i v d, h i v = some d → d.row = i) :
    ∀ (l : List CellValue) (k i : ℕ) (v : CellValue), l.get? i = some v →
      ((∃ d ∈ (rowsFrom k l).filterMap (fun p => h p.1 p.2), d.row = k + i) ↔
        (h (k + i) v).isSome) := by
  intro l
  induction l with
  | nil => intro k i v hv; simp at hv
  | cons w l ih =>
    intro k i v hv
    simp only [rowsFrom, List.filterMap_cons]
    cases i with
    | zero =>
      simp only [List.get?_cons_zero, Option.some.injEq] at hv
      subst hv
      simp only [Nat.add_zero]
      cases hh : h k w with
      | none =>
        simp only [Option.isSome_none, Bool.false_eq_true, iff_false]
        intro ⟨d, hd, hdr⟩
        have := rowsFrom_filterMap_row_ge h hrow l (k + 1) d hd
        omega
      | some d0 =>
        simp only [Option.isSome_some, iff_true]
        exact ⟨d0, List.mem_cons_self _ _, hrow k w d0 hh⟩
    | succ j =>
      simp only [List.get?_cons_succ] at hv
      have hk : k + (j + 1) = (k + 1) + j := by omega
      rw [hk]
      have base := ih (k + 1) j v hv
      cases hh : h k w with
      | none => exact base
      | some d0 =>
        constructor
        · intro ⟨d, hd, hdr⟩
          rcases List.mem_cons.mp hd with rfl | hd'
          · have := hrow k w d hh
            omega
          · exact base.mp ⟨d, hd', hdr⟩
        · intro hs
          obtain ⟨d, hd, hdr⟩ := base.mpr hs
          exact ⟨d, List.mem_cons_of_mem _ hd, hdr⟩

/-- The number of details produced equals the number of rows satisfying the
per-value condition, when the check's firing does not depend on the index. -/
theorem rowsFrom_filterMap_length
    (h : ℕ → CellValue → Option FailureDetail) (cond : CellValue → Bool)
    (hiff : ∀ i v, (h i v).isSome = cond v) :
    ∀ (l : List CellValue) (k : ℕ),
      ((rowsFrom k l).filterMap (fun p => h p.1 p.2)).length = l.countP cond := by
  intro l
  induction l with
  | nil => intro k; simp [rowsFrom]
  | cons w l ih =>
    intro k
    simp only [rowsFrom, List.filterMap_cons, List.countP_cons]
    cases hh : h k w with
    | none =>
      have := hiff k w
      rw [hh] at this
      simp only [Option.isSome_none] at this
      rw [ih (k + 1), ← this]
      simp
    | some d0 =>
      have := hiff k w
      rw [hh] at this
      simp only [Option.isSome_some] at this
      rw [List.length_cons, ih (k + 1), ← this]
      simp

/-- Every detail produced by a row-indexed `filterMap` satisfies any property
the producing function guarantees. -/
theorem rowsFrom_filterMap_all
    (h : ℕ → CellValue → Option FailureDetail) (P : FailureDetail → Prop)
    (hP : ∀ i v d, h i v = some d → P d) :
    ∀ (l : List CellValue) (k : ℕ) (d : FailureDetail),
      d ∈ (rowsFrom k l).filterMap (fun p => h p.1 p.2) → P d := by
  intro l k d hd
  obtain ⟨p, _, hp⟩ := List.mem_filterMap.mp hd
  exact hP p.1 p.2 d hp

/-- Claim C10: with `allow_null = true` and `max_null_percent` unset, the
null-check validator returns `passed = true`, `failed_records = 0` and an
empty failure sequence for every table and column, however many nulls the
column contains. -/
theorem nullCheck_allowNull_noLimit_silently_passes (df : Table) (column : String) :
    (nullCheckValidate true Option.none df column).passed = true ∧
    (nullCheckValidate true Option.none df column).failed_records = 0 ∧
    (nullCheckValidate true Option.none df column).error_details = [] := by
  simp [nullCheckValidate]

/-- Claim C2: with `allow_null = true` and `max_null_percent` set, when the
column's null percentage does not exceed the limit the validator still records
one failure detail per null row, each citing the allowed limit; since `passed`
is `failed_records == 0`, the result fails whenever the column has a null. -/
theorem nullCheck_withinLimit_still_records_failures
    (maxPct : ℚ) (df : Table) (column : String)
    (hle : ¬ nullPercent ((df.getCol column).countP (fun v => v.isna))
        (df.getCol column).length > maxPct) :
    (nullCheckValidate true (some maxPct) df column).failed_records =
      (df.getCol column).countP (fun v => v.isna) ∧
    (∀ d ∈ (nullCheckValidate true (some maxPct) df column).error_details,
      d.reason = .nullWithinLimit maxPct) ∧
    ((nullCheckValidate true (some maxPct) df column).passed = true ↔
      (nullCheckValidate true (some maxPct) df column).failed_records = 0) ∧
    (0 < (df.getCol column).countP (fun v => v.isna) →
      (nullCheckValidate true (some maxPct) df column).passed = false) := by
  have hlen := rowsFrom_filterMap_length
    (fun i v => if v.isna then
        some (FailureDetail.mk i .pyNone (.nullWithinLimit maxPct))
      else none)
    (fun v => v.isna)
    (by intro i v; cases hv : v.isna <;> simp [hv])
    (df.getCol column) 0
  simp only [nullCheckValidate, Bool.not_true, Bool.false_eq_true, if_false,
    if_neg hle]
  refine ⟨hlen, ?_, ?_, ?_⟩
  · intro d hd
    refine rowsFrom_filterMap_all
      (fun i v => if v.isna then
          some (FailureDetail.mk i .pyNone (.nullWithinLimit maxPct))
        else none)
      (fun d => d.reason = .nullWithinLimit maxPct)
      ?_ (df.getCol column) 0 d hd
    intro i v d' hd'
    by_cases hv : v.isna = true
    · simp only [hv, if_true, Option.some.injEq] at hd'
      subst hd'
      rfl
    · simp [hv] at hd'
  · exact beq_iff_eq
  · intro hpos
    rw [hlen, beq_eq_false_iff_ne]
    omega

/-- The range validator's failure condition exactly as the specification
phrases it (to be compared against the code's `rangeRowCheck`): null, or not
numeric, or outside the configured bounds, with `<`/`>` failing when
inclusive, `<=`/`>=` failing when exclusive, and an unset bound disabling
that side. -/
def rangeSpecFails (minValue maxValue : Option ℚ) (inclusive : Bool)
    (v : CellValue) : Prop :=
  v.isna = true ∨ v.asFloat = Option.none ∨
  (∃ x, v.asFloat = some x ∧
    ((inclusive = true ∧
        ((∃ m, minValue = some m ∧ x < m) ∨ (∃ m, maxValue = some m ∧ m < x))) ∨
     (inclusive = false ∧
        ((∃ m, minValue = some m ∧ x ≤ m) ∨ (∃ m, maxValue = some m ∧ m ≤ x)))))

theorem rangeCheckMin_isSome (mn : Option ℚ) (incl : Bool) (x : ℚ) :
    (rangeCheckMin mn incl x).isSome = true ↔
      ((incl = true ∧ ∃ m, mn = some m ∧ x < m) ∨
       (incl = false ∧ ∃ m, mn = some m ∧ x ≤ m)) := by
  cases mn <;> cases incl <;> simp [rangeCheckMin]

theorem rangeCheckMax_isSome (mx : Option ℚ) (incl : Bool) (x : ℚ) :
    (rangeCheckMax mx incl x).isSome = true ↔
      ((incl = true ∧ ∃ m, mx = some m ∧ m < x) ∨
       (incl = false ∧ ∃ m, mx = some m ∧ m ≤ x)) := by
  cases mx <;> cases incl <;> simp [rangeCheckMax]

theorem rangeRowCheck_isSome_iff (mn mx : Option ℚ) (incl : Bool)
    (v : CellValue) :
    (rangeRowCheck mn mx incl v).isSome = true ↔ rangeSpecFails mn mx incl v := by
  unfold rangeRowCheck rangeSpecFails
  by_cases hna : v.isna = true
  · simp [hna]
  · cases hf : v.asFloat with
    | none => simp [hna, hf]
    | some x =>
      have hmin := rangeCheckMin_isSome mn incl x
      have hmax := rangeCheckMax_isSome mx incl x
      simp only [hna, Bool.false_eq_true, if_false, hf, reduceCtorEq, false_or,
        Option.some.injEq, exists_eq_left']
      cases hc : rangeCheckMin mn incl x with
      | some r =>
        rw [hc] at hmin
        simp only [Option.isSome_some, true_iff] at hmin
        simp only [Option.isSome_some, true_iff]
        rcases hmin with ⟨hi, hm⟩ | ⟨hi, hm⟩
        · exact Or.inl ⟨hi, Or.inl hm⟩
        · exact Or.inr ⟨hi, Or.inl hm⟩
      | none =>
        rw [hc] at hmin
        simp only [Option.isSome_none, Bool.false_eq_true, false_iff] at hmin
        rw [hmax]
        constructor
        · intro hside
          rcases hside with ⟨hi, hm⟩ | ⟨hi, hm⟩
          · exact Or.inl ⟨hi, Or.inr hm⟩
          · exact Or.inr ⟨hi, Or.inr hm⟩
        · intro hside
          rcases hside with ⟨hi, hmn | hmx2⟩ | ⟨hi, hmn | hmx2⟩
          · exact absurd (Or.inl ⟨hi, hmn⟩) hmin
          · exact Or.inl ⟨hi, hmx2⟩
          · exact absurd (Or.inr ⟨hi, hmn⟩) hmin
          · exact Or.inr ⟨hi, hmx2⟩

/-- Claim C1: a row fails the range validator iff its value is null, or not
numeric, or violates a set bound (strictly outside when inclusive, on or
outside when exclusive); and `range(min=0, max=10, inclusive=false)` over
`[0, 5, 10]` yields `failed_records = 2`. -/
theorem range_fails_iff_spec (mn mx : Option ℚ) (incl : Bool) (df : Table)
    (column : String) :
    (∀ i v, (df.getCol column).get? i = some v →
      ((∃ d ∈ (rangeValidate mn mx incl df column).error_details, d.row = i) ↔
        rangeSpecFails mn mx incl v)) ∧
    (rangeValidate (some 0) (some 10) false rangeEdgeTable "value").failed_records = 2 := by
  constructor
  · intro i v hv
    have hmem := rowsFrom_filterMap_mem_iff
      (fun i v => (rangeRowCheck mn mx incl v).map
        (fun r => FailureDetail.mk i (.cell v) r))
      (by
        intro i v d hd
        obtain ⟨r, hr, hmap⟩ := Option.map_eq_some'.mp hd
        subst hmap
        rfl)
      (df.getCol column) 0 i v hv
    rw [Nat.zero_add] at hmem
    simp only [Option.isSome_map'] at hmem
    exact Iff.trans hmem (rangeRowCheck_isSome_iff mn mx incl v)
  · decide

/-- Witness for claim C1 at a concrete input: row 0 (value 0) of the
exclusive-bounds example indeed yields a recorded failure, and the example's
failure count is 2. -/
theorem range_fails_iff_spec_witness :
    (∃ d ∈ (rangeValidate (some 0) (some 10) false rangeEdgeTable "value").error_details,
      d.row = 0) ∧
    (rangeValidate (some 0) (some 10) false rangeEdgeTable "value").failed_records = 2 := by
  have h := range_fails_iff_spec (some 0) (some 10) false rangeEdgeTable "value"
  refine ⟨(h.1 0 (numCell 0) (by decide)).mpr ?_, h.2⟩
  exact Or.inr (Or.inr ⟨0, rfl, Or.inr ⟨rfl, Or.inl ⟨0, rfl, le_refl 0⟩⟩⟩)

/-- Witness for claim C2 at a concrete input: one null out of two rows with a
50% limit (percentage exactly at the limit) still fails the validation. -/
theorem nullCheck_withinLimit_still_records_failures_witness :
    (nullCheckValidate true (some 50) oneNullTable "c").failed_records = 1 ∧
    (nullCheckValidate true (some 50) oneNullTable "c").passed = false := by
  have hp : ¬ nullPercent ((oneNullTable.getCol "c").countP (fun v => v.isna))
      (oneNullTable.getCol "c").length > 50 := by
    rw [show (oneNullTable.getCol "c").countP (fun v => v.isna) = 1 from rfl,
      show (oneNullTable.getCol "c").length = 2 from rfl]
    norm_num [nullPercent]
  have h := nullCheck_withinLimit_still_records_failures 50 oneNullTable "c" hp
  exact ⟨h.1.trans rfl, h.2.2.2 Nat.zero_lt_one⟩

/-- Claim C6: for the regex validator, with any compiled pattern, a row fails
iff it is null or the anchored match on the stringified value fails; the
pattern `^[a-z]+$` with `case_sensitive=true` over `["abc", "Xyz", ""]` yields
`failed_records = 2`, and with `case_sensitive=false` over `["ABC", "xyz"]`
the result passes. -/
theorem regex_fails_iff_match (engine : RegexEngine) (pat : String)
    (cs : Bool) (m : String → Bool) (df : Table) (column : String)
    (hc : engine.compile pat cs = some m) :
    (∃ r, regexValidate engine (some pat) cs df column = .ok r ∧
      (∀ i v, (df.getCol column).get? i = some v →
        ((∃ d ∈ r.error_details, d.row = i) ↔
          (v.isna = true ∨ m v.asString = false)))) ∧
    ((regexValidate pyReModel (some "^[a-z]+$") true regexCaseTable "text").toOption.map
      (fun r => r.failed_records) = some 2) ∧
    ((regexValidate pyReModel (some "^[a-z]+$") false regexUpperTable "text").toOption.map
      (fun r => r.passed) = some true) := by
  refine ⟨?_, by decide, by decide⟩
  simp only [regexValidate, hc]
  refine ⟨_, rfl, ?_⟩
  intro i v hv
  have hmem := rowsFrom_filterMap_mem_iff
    (fun i v =>
      if v.isna then some (FailureDetail.mk i .pyNone .nullCannotMatch)
      else if !m v.asString then
        some (FailureDetail.mk i (.text v.asString) .doesNotMatch)
      else none)
    (by
      intro i v d hd
      by_cases hna : v.isna = true
      · simp only [hna, if_true] at hd
        injection hd with hd
        rw [← hd]
      · by_cases hm : m v.asString = true
        · simp [hna, hm] at hd
        · simp only [hna, Bool.false_eq_true, if_false, hm, Bool.not_eq_true,
            Bool.not_false, if_true] at hd
          injection hd with hd
          rw [← hd])
    (df.getCol column) 0 i v hv
  rw [Nat.zero_add] at hmem
  refine Iff.trans hmem ?_
  by_cases hna : v.isna = true
  · simp [hna]
  · by_cases hm : m v.asString = true
    · simp [hna, hm]
    · have hm' : m v.asString = false := by
        cases hq : m v.asString
        · rfl
        · exact absurd hq hm
      simp [hna, hm']

/-- Witness for claim C6 at a concrete input: under the compiled `^[a-z]+$`
matcher, row 1 (`"Xyz"`) of the case-sensitive example is a recorded
failure. -/
theorem regex_fails_iff_match_witness :
    ∃ r, regexValidate pyReModel (some "^[a-z]+$") true regexCaseTable "text" = .ok r ∧
      (∃ d ∈ r.error_details, d.row = 1) := by
  have h := regex_fails_iff_match pyReModel "^[a-z]+$" true
    (lowerAlphaMatch false) regexCaseTable "text" rfl
  obtain ⟨r, hr, hiff⟩ := h.1
  exact ⟨r, hr, (hiff 1 (txtCell "Xyz") (by decide)).mpr (Or.inr (by decide))⟩

/-- Claim C7: a missing regex pattern, a pattern that fails to compile, and a
missing custom callable each abort the whole `validate` call with an error
rather than a per-row failure, and such a fault propagates out of
`Pipeline.run` uncaught (aborting the run and leaving `last_result`
unchanged). -/
theorem missing_execution_param_is_fatal :
    (∀ (engine : RegexEngine) (cs : Bool) (df : Table) (column : String),
      regexValidate engine Option.none cs df column = .error .patternRequired) ∧
    (∀ (engine : RegexEngine) (pat : String) (cs : Bool) (df : Table)
      (column : String), engine.compile pat cs = Option.none →
        regexValidate engine (some pat) cs df column =
          .error (.invalidPattern pat)) ∧
    (∀ (em : Option String) (df : Table) (column : String),
      customValidate Option.none em df column = .error .funcRequired) ∧
    (∀ (engine : RegexEngine) (cs : Bool) (lr : Option PipelineResult)
      (df : Table) (column : String), df.hasCol column = true →
        (Pipeline.run engine ⟨[⟨column, .vRegex Option.none cs⟩], lr⟩ df).1 =
          .error (.validatorError .patternRequired) ∧
        (Pipeline.run engine ⟨[⟨column, .vRegex Option.none cs⟩], lr⟩ df).2.lastResult = lr) := by
  refine ⟨fun _ _ _ _ => rfl, ?_, fun _ _ _ => rfl, ?_⟩
  · intro engine pat cs df column hc
    simp only [regexValidate, hc]
  · intro engine cs lr df column hcol
    constructor
    · simp only [Pipeline.run, runAggregate, runSpecs, hcol, if_true,
        runValidator, regexValidate]
    · simp only [Pipeline.run, runAggregate, runSpecs, hcol, if_true,
        runValidator, regexValidate]

/-- Witness for claim C7 at concrete inputs: the unmatched-parenthesis
pattern `"("` fails to compile and aborts the call, and a missing pattern
aborts a concrete single-validator run without touching `last_result`. -/
theorem missing_execution_param_is_fatal_witness :
    regexValidate pyReModel (some "(") true regexCaseTable "text" =
      .error (.invalidPattern "(") ∧
    (Pipeline.run pyReModel ⟨[⟨"text", .vRegex Option.none true⟩], Option.none⟩
      regexCaseTable).1 = .error (.validatorError .patternRequired) := by
  have h := missing_execution_param_is_fatal
  exact ⟨h.2.1 pyReModel "(" true regexCaseTable "text" rfl,
    (h.2.2.2 pyReModel true Option.none regexCaseTable "text" (by decide)).1⟩

/-- Counterexample to claim C9: on one failing record out of two, the
null-check validator's message is `"1/2 records failed null check"` — it does
not carry the claimed trailing word `validation` of
`"{failed}/{total} records failed {check-kind} validation"`. -/
theorem nullCheck_message_no_validation_suffix :
    (nullCheckValidate false Option.none oneNullTable "c").failed_records = 1 ∧
    (nullCheckValidate false Option.none oneNullTable "c").total_records = 2 ∧
    (nullCheckValidate false Option.none oneNullTable "c").message =
      "1/2 records failed null check" ∧
    (nullCheckValidate false Option.none oneNullTable "c").message ≠
      "1/2 records failed null check validation" ∧
    (nullCheckValidate false Option.none oneNullTable "c").message ≠
      "1/2 records failed null_check validation" := by
  refine ⟨by decide, by decide, by decide, by decide, by decide⟩

/-- Claim C9 as amended: every built-in validator reports
`"All {total} records passed"` on zero failures; on failures, range, regex,
type and custom report `"{failed}/{total} records failed {kind} validation"`,
while null-check reports `"{failed}/{total} records failed null check"`
without the trailing word `validation`. -/
theorem builtin_validator_message_formats
    (mn mx : Option ℚ) (incl allowNull : Bool) (mp : Option ℚ)
    (engine : RegexEngine) (pat : Option String) (cs : Bool)
    (et : Option String) (st : Bool) (f : Option (CellValue → FuncOutcome))
    (em : Option String) (df : Table) (column : String) :
    (∀ fc t, (rangeValidate mn mx incl df column).failed_records = fc →
      (rangeValidate mn mx incl df column).total_records = t →
      (rangeValidate mn mx incl df column).message =
        if fc = 0 then s!"All {t} records passed"
        else s!"{fc}/{t} records failed range validation") ∧
    (∀ fc t, (nullCheckValidate allowNull mp df column).failed_records = fc →
      (nullCheckValidate allowNull mp df column).total_records = t →
      (nullCheckValidate allowNull mp df column).message =
        if fc = 0 then s!"All {t} records passed"
        else s!"{fc}/{t} records failed null check") ∧
    (∀ r fc t, regexValidate engine pat cs df column = .ok r →
      r.failed_records = fc → r.total_records = t →
      r.message = if fc = 0 then s!"All {t} records passed"
        else s!"{fc}/{t} records failed regex validation") ∧
    (∀ r fc t, typeValidate et st df column = .ok r →
      r.failed_records = fc → r.total_records = t →
      r.message = if fc = 0 then s!"All {t} records passed"
        else s!"{fc}/{t} records failed type validation") ∧
    (∀ r fc t, customValidate f em df column = .ok r →
      r.failed_records = fc → r.total_records = t →
      r.message = if fc = 0 then s!"All {t} records passed"
        else s!"{fc}/{t} records failed custom validation") := by
  refine ⟨?_, ?_, ?_, ?_, ?_⟩
  · intro fc t h1 h2
    rw [← h1, ← h2]
    rfl
  · intro fc t h1 h2
    rw [← h1, ← h2]
    rfl
  · intro r fc t hr h1 h2
    rw [← h1, ← h2]
    cases pat with
    | none => exact Except.noConfusion hr
    | some p =>
      simp only [regexValidate] at hr
      cases hc : engine.compile p cs with
      | none => rw [hc] at hr; exact Except.noConfusion hr
      | some m =>
        rw [hc] at hr
        injection hr with hr
        rw [← hr]
  · intro r fc t hr h1 h2
    rw [← h1, ← h2]
    simp only [typeValidate] at hr
    by_cases he : (pyStrOfOpt et).toLower = ""
    · rw [if_pos he] at hr
      exact Except.noConfusion hr
    · rw [if_neg he] at hr
      cases hv : validTypeName (pyStrOfOpt et).toLower with
      | false =>
        simp only [hv, Bool.not_false, if_true] at hr
        exact Except.noConfusion hr
      | true =>
        simp only [hv, Bool.not_true, Bool.false_eq_true, if_false] at hr
        injection hr with hr
        rw [← hr]
  · intro r fc t hr h1 h2
    rw [← h1, ← h2]
    cases f with
    | none => exact Except.noConfusion hr
    | some g =>
      simp only [customValidate] at hr
      injection hr with hr
      rw [← hr]

/-- Witness for claim C9 (as amended) at concrete inputs. -/
theorem builtin_validator_message_formats_witness :
    (rangeValidate (some 0) (some 10) false rangeEdgeTable "value").message =
      "2/3 records failed range validation" ∧
    (nullCheckValidate false Option.none oneNullTable "c").message =
      "1/2 records failed null check" := by
  have h := builtin_validator_message_formats (some 0) (some 10) false false
    Option.none pyReModel Option.none true Option.none false Option.none
    Option.none rangeEdgeTable "value"
  have h2 := builtin_validator_message_formats (some 0) (some 10) false false
    Option.none pyReModel Option.none true Option.none false Option.none
    Option.none oneNullTable "c"
  constructor
  · rw [h.1 2 3 (by decide) (by decide)]
    decide
  · rw [h2.2.1 1 2 (by decide) (by decide)]
    decide

/-- Claim C8: the result of `Pipeline.run` does not depend on the retained
`last_result`, so running the same pipeline instance again on the same table
reproduces the identical `PipelineResult` (same counts, same ordered
per-validator failure details) and the identical pipeline state. -/
theorem pipeline_run_idempotent (engine : RegexEngine) (p p' : Pipeline)
    (df : Table) (res : PipelineResult)
    (h : Pipeline.run engine p df = (.ok res, p')) :
    Pipeline.run engine p' df = (.ok res, p') := by
  unfold Pipeline.run at h ⊢
  cases ha : runAggregate engine df p.specs with
  | error e =>
    rw [ha] at h
    injection h with h1 h2
    exact Except.noConfusion h1
  | ok pr =>
    rw [ha] at h
    injection h with h1 h2
    injection h1 with h1
    subst h1
    subst h2
    rw [ha]

/-- The pipeline result of the exclusive-bounds range example, used by the
idempotence witness. -/
def firstRunResult : PipelineResult :=
  { passed := false
    total_validations := 1
    passed_validations := 0
    failed_validations := 1
    results := [rangeValidate (some 0) (some 10) false rangeEdgeTable "value"] }

/-- Witness for claim C8 at a concrete input: after one run of a concrete
one-entry pipeline, a second run returns the same result and state. -/
theorem pipeline_run_idempotent_witness :
    Pipeline.run pyReModel
      { specs := [PreparedSpec.mk "value" (.vRange (some 0) (some 10) false)],
        lastResult := some firstRunResult } rangeEdgeTable =
      (.ok firstRunResult,
        { specs := [PreparedSpec.mk "value" (.vRange (some 0) (some 10) false)],
          lastResult := some firstRunResult }) :=
  pipeline_run_idempotent pyReModel
    { specs := [PreparedSpec.mk "value" (.vRange (some 0) (some 10) false)],
      lastResult := Option.none }
    { specs := [PreparedSpec.mk "value" (.vRange (some 0) (some 10) false)],
      lastResult := some firstRunResult }
    rangeEdgeTable firstRunResult rfl

/-- When every entry's column exists and every validator call succeeds, the
traversal returns one result per entry, in specification order. -/
theorem runSpecs_all_ok (engine : RegexEngine) (df : Table) :
    ∀ specs : List PreparedSpec,
      (∀ s ∈ specs, df.hasCol s.column = true →
        (runValidator engine s.validator df s.column).isOk = true) →
      (∀ s ∈ specs, df.hasCol s.column = true) →
      ∃ results, runSpecs engine df specs = .ok results ∧
        results.length = specs.length ∧
        (∀ i s, specs.get? i = some s →
          ∃ r, results.get? i = some r ∧
            runValidator engine s.validator df s.column = .ok r) := by
  intro specs
  induction specs with
  | nil =>
    intro _ _
    exact ⟨[], rfl, rfl, by intro i s hs; simp at hs⟩
  | cons hd rest ih =>
    intro hok hcols
    have hhd : df.hasCol hd.column = true := hcols hd (List.mem_cons_self _ _)
    have hvok := hok hd (List.mem_cons_self _ _) hhd
    cases hv : runValidator engine hd.validator df hd.column with
    | error e => rw [hv] at hvok; simp [Except.isOk, Except.toBool] at hvok
    | ok r =>
      obtain ⟨results, hrs, hlen, hidx⟩ := ih
        (fun s hs h => hok s (List.mem_cons_of_mem _ hs) h)
        (fun s hs => hcols s (List.mem_cons_of_mem _ hs))
      refine ⟨r :: results, ?_, ?_, ?_⟩
      · simp only [runSpecs, hhd, if_true, hv, hrs]
      · simp [hlen]
      · intro i s hs
        cases i with
        | zero =>
          simp only [List.get?_cons_zero, Option.some.injEq] at hs
          subst hs
          exact ⟨r, rfl, hv⟩
        | succ j =>
          simp only [List.get?_cons_succ] at hs ⊢
          exact hidx j s hs
/-- When the first absent column sits at index `i` and all validator calls at
earlier (existing) columns succeed, the traversal fails with that column's
not-found error. -/
theorem runSpecs_first_absent (engine : RegexEngine) (df : Table) :
    ∀ (specs : List PreparedSpec) (i : ℕ) (s : PreparedSpec),
      specs.get? i = some s → df.hasCol s.column = false →
      (∀ j t, j < i → specs.get? j = some t → df.hasCol t.column = true) →
      (∀ t ∈ specs, df.hasCol t.column = true →
        (runValidator engine t.validator df t.column).isOk = true) →
      runSpecs engine df specs = .error (.columnNotFound s.column) := by
  intro specs
  induction specs with
  | nil => intro i s hs; simp at hs
  | cons hd rest ih =>
    intro i s hs habs hpre hok
    cases i with
    | zero =>
      simp only [List.get?_cons_zero, Option.some.injEq] at hs
      subst hs
      simp only [runSpecs, habs, Bool.false_eq_true, if_false]
    | succ j =>
      simp only [List.get?_cons_succ] at hs
      have hhd : df.hasCol hd.column = true :=
        hpre 0 hd (Nat.succ_pos j) rfl
      have hvok := hok hd (List.mem_cons_self _ _) hhd
      cases hv : runValidator engine hd.validator df hd.column with
      | error e => rw [hv] at hvok; simp [Except.isOk, Except.toBool] at hvok
      | ok r =>
        have hrest := ih j s hs habs
          (fun k t hk ht => hpre (k + 1) t (by omega) ht)
          (fun t ht h => hok t (List.mem_cons_of_mem _ ht) h)
        simp only [runSpecs, hhd, if_true, hv, hrest]
/-- When every validator call at an existing column succeeds, the only
exception the traversal can produce is a column-not-found error for an entry
whose column is absent. -/
theorem runSpecs_error_is_column (engine : RegexEngine) (df : Table) :
    ∀ (specs : List PreparedSpec) (e : RunError),
      runSpecs engine df specs = .error e →
      (∀ t ∈ specs, df.hasCol t.column = true →
        (runValidator engine t.validator df t.column).isOk = true) →
      ∃ s ∈ specs, df.hasCol s.column = false ∧ e = .columnNotFound s.column := by
  intro specs
  induction specs with
  | nil => intro e he; simp [runSpecs] at he
  | cons hd rest ih =>
    intro e he hok
    by_cases hhd : df.hasCol hd.column = true
    · have hvok := hok hd (List.mem_cons_self _ _) hhd
      cases hv : runValidator engine hd.validator df hd.column with
      | error e2 => rw [hv] at hvok; simp [Except.isOk, Except.toBool] at hvok
      | ok r =>
        simp only [runSpecs, hhd, if_true, hv] at he
        cases hrest : runSpecs engine df rest with
        | error e2 =>
          rw [hrest] at he
          injection he with he
          subst he
          obtain ⟨s, hsmem, hs1, hs2⟩ := ih e2 hrest
            (fun t ht h => hok t (List.mem_cons_of_mem _ ht) h)
          exact ⟨s, List.mem_cons_of_mem _ hsmem, hs1, hs2⟩
        | ok rs => rw [hrest] at he; exact Except.noConfusion he
    · have hhd' : df.hasCol hd.column = false := by
        cases hq : df.hasCol hd.column
        · rfl
        · exact absurd hq hhd
      simp only [runSpecs, hhd', Bool.false_eq_true, if_false] at he
      injection he with he
      exact ⟨hd, List.mem_cons_self _ _, hhd', he.symm⟩

/-- Counterexample to claim C5: a run over a pipeline whose only entry's
column exists in the table can still fail to return a `PipelineResult` — a
validator-internal fault (here a missing regex pattern) escapes `run` as a
non-configuration error, so "run raises a configuration error iff some column
is absent, otherwise it returns a result" is false as stated. -/
theorem pipeline_run_fault_despite_columns_present :
    rangeEdgeTable.hasCol "value" = true ∧
    (Pipeline.run pyReModel
      ⟨[⟨"value", .vRegex Option.none true⟩], Option.none⟩ rangeEdgeTable).1 =
      .error (.validatorError .patternRequired) :=
  ⟨by decide, rfl⟩

/-- Claim C5 as amended: provided no validator call at an existing column
faults, `Pipeline.run` raises a configuration error iff some entry's column
is absent from the table — the error names the first absent column in
specification order, is raised before that entry's validator runs, no
`PipelineResult` is produced and the pipeline state (its retained last
result) is unchanged; when every column exists, run returns a
`PipelineResult` with one result per entry in specification order, retained
as the last result, whose overall `passed` is true iff every individual
result passed. -/
theorem pipeline_run_column_errors_and_order (engine : RegexEngine)
    (p : Pipeline) (df : Table)
    (hok : ∀ s ∈ p.specs, df.hasCol s.column = true →
      (runValidator engine s.validator df s.column).isOk = true) :
    ((∀ s ∈ p.specs, df.hasCol s.column = true) →
      ∃ pr, Pipeline.run engine p df =
          (.ok pr, { specs := p.specs, lastResult := some pr }) ∧
        pr.results.length = p.specs.length ∧
        (∀ i s, p.specs.get? i = some s →
          ∃ r, pr.results.get? i = some r ∧
            runValidator engine s.validator df s.column = .ok r) ∧
        (pr.passed = true ↔ ∀ r ∈ pr.results, r.passed = true)) ∧
    (∀ i s, p.specs.get? i = some s → df.hasCol s.column = false →
      (∀ j t, j < i → p.specs.get? j = some t → df.hasCol t.column = true) →
      Pipeline.run engine p df = (.error (.columnNotFound s.column), p)) ∧
    (∀ e, (Pipeline.run engine p df).1 = .error e →
      ∃ s ∈ p.specs, df.hasCol s.column = false ∧ e = .columnNotFound s.column) := by
  refine ⟨?_, ?_, ?_⟩
  · intro hcols
    obtain ⟨results, hrs, hlen, hidx⟩ := runSpecs_all_ok engine df p.specs hok hcols
    refine ⟨{ passed := results.countP (fun r => !r.passed) == 0
              total_validations := p.specs.length
              passed_validations := results.countP (fun r => r.passed)
              failed_validations := results.countP (fun r => !r.passed)
              results := results }, ?_, by simpa using hlen, hidx, ?_⟩
    · simp only [Pipeline.run, runAggregate, hrs]
    · simp only [beq_iff_eq, List.countP_eq_zero]
      constructor
      · intro hz r hr
        have := hz r hr
        simp only [Bool.not_eq_true'] at this
        simpa using this
      · intro hall r hr
        simp only [Bool.not_eq_true']
        simpa using hall r hr
  · intro i s hs habs hpre
    have := runSpecs_first_absent engine df p.specs i s hs habs hpre hok
    simp only [Pipeline.run, runAggregate, this]
  · intro e he
    unfold Pipeline.run runAggregate at he
    cases hrs : runSpecs engine df p.specs with
    | error e2 =>
      rw [hrs] at he
      simp only at he
      injection he with he
      subst he
      exact runSpecs_error_is_column engine df p.specs e2 hrs hok
    | ok results =>
      rw [hrs] at he
      simp only at he
      exact Except.noConfusion he

/-- A two-entry pipeline whose second entry references a column absent from
the exclusive-bounds example table, used by the C5 witness. -/
def missingColPipeline : Pipeline :=
  { specs := [⟨"value", .vRange (some 0) (some 10) false⟩,
              ⟨"missing", .vRange Option.none Option.none true⟩],
    lastResult := Option.none }

/-- Witness for claim C5 (as amended) at a concrete input: the run fails with
the not-found error for the second entry's absent column and leaves the
pipeline unchanged. -/
theorem pipeline_run_column_errors_and_order_witness :
    Pipeline.run pyReModel missingColPipeline rangeEdgeTable =
      (.error (.columnNotFound "missing"), missingColPipeline) := by
  have h := pipeline_run_column_errors_and_order pyReModel missingColPipeline
    rangeEdgeTable (by decide)
  refine h.2.1 1 ⟨"missing", .vRange Option.none Option.none true⟩ rfl (by decide) ?_
  intro j t hj ht
  have hj0 : j = 0 := by omega
  subst hj0
  simp only [missingColPipeline, List.get?_cons_zero, Option.some.injEq] at ht
  rw [← ht]
  decide

/-- A successful schema-loop pass yields exactly one normalized pair per
schema entry, in schema order, with the declared default filled in for every
absent parameter. -/
theorem normaliseParams_ok_keys (vn : String) (idx : ℕ) (c : String)
    (ps : Params) :
    ∀ (schema : Schema) (nps : Params),
      normaliseParams vn idx c ps schema = .ok nps →
      nps.map Prod.fst = schema.map Prod.fst ∧
      (∀ pname meta, (pname, meta) ∈ schema →
        lookupParam ps pname = Option.none → (pname, meta.default) ∈ nps) := by
  intro schema
  induction schema with
  | nil =>
    intro nps h
    simp only [normaliseParams] at h
    injection h with h
    subst h
    exact ⟨rfl, by intro p m hm; simp at hm⟩
  | cons hd rest ih =>
    intro nps h
    obtain ⟨pname, meta⟩ := hd
    simp only [normaliseParams] at h
    cases hl : lookupParam ps pname with
    | some v =>
      rw [hl] at h
      simp only [] at h
      by_cases ht : typeCheckOk v meta.ty = true
      · rw [if_pos ht] at h
        cases hr : normaliseParams vn idx c ps rest with
        | error e => rw [hr] at h; exact Except.noConfusion h
        | ok nrest =>
          rw [hr] at h
          injection h with h
          subst h
          obtain ⟨hk, hd2⟩ := ih nrest hr
          refine ⟨by simp [hk], ?_⟩
          intro q qm hq hql
          rcases List.mem_cons.mp hq with heq | htail
          · injection heq with he1 he2
            subst he1
            rw [hql] at hl
            exact Option.noConfusion hl
          · exact List.mem_cons_of_mem _ (hd2 q qm htail hql)
      · rw [if_neg ht] at h
        exact Except.noConfusion h
    | none =>
      rw [hl] at h
      simp only [] at h
      by_cases hreq : (meta.required && meta.default.isNoneV) = true
      · rw [if_pos hreq] at h
        exact Except.noConfusion h
      · rw [if_neg hreq] at h
        simp only [] at h
        by_cases ht : typeCheckOk meta.default meta.ty = true
        · rw [if_pos ht] at h
          cases hr : normaliseParams vn idx c ps rest with
          | error e => rw [hr] at h; exact Except.noConfusion h
          | ok nrest =>
            rw [hr] at h
            injection h with h
            subst h
            obtain ⟨hk, hd2⟩ := ih nrest hr
            refine ⟨by simp [hk], ?_⟩
            intro q qm hq hql
            rcases List.mem_cons.mp hq with heq | htail
            · injection heq with he1 he2
              subst he1
              subst he2
              exact List.mem_cons_self _ _
            · exact List.mem_cons_of_mem _ (hd2 q qm htail hql)
        · rw [if_neg ht] at h
          exact Except.noConfusion h
/-- Every exception of the schema loop is an `InvalidConfigError`. -/
theorem normaliseParams_error_invalid (vn : String) (idx : ℕ) (c : String)
    (ps : Params) :
    ∀ (schema : Schema) (e : LoadError),
      normaliseParams vn idx c ps schema = .error e →
      ∃ cf, e = .invalidConfig cf := by
  intro schema
  induction schema with
  | nil =>
    intro e h
    simp only [normaliseParams] at h
    exact Except.noConfusion h
  | cons hd rest ih =>
    intro e h
    obtain ⟨pname, meta⟩ := hd
    simp only [normaliseParams] at h
    cases hl : lookupParam ps pname with
    | some v =>
      rw [hl] at h
      simp only [] at h
      by_cases ht : typeCheckOk v meta.ty = true
      · rw [if_pos ht] at h
        cases hr : normaliseParams vn idx c ps rest with
        | error e2 =>
          rw [hr] at h
          injection h with h
          subst h
          exact ih e2 hr
        | ok nrest => rw [hr] at h; exact Except.noConfusion h
      · rw [if_neg ht] at h
        injection h with h
        exact ⟨_, h.symm⟩
    | none =>
      rw [hl] at h
      simp only [] at h
      by_cases hreq : (meta.required && meta.default.isNoneV) = true
      · rw [if_pos hreq] at h
        injection h with h
        exact ⟨_, h.symm⟩
      · rw [if_neg hreq] at h
        simp only [] at h
        by_cases ht : typeCheckOk meta.default meta.ty = true
        · rw [if_pos ht] at h
          cases hr : normaliseParams vn idx c ps rest with
          | error e2 =>
            rw [hr] at h
            injection h with h
            subst h
            exact ih e2 hr
          | ok nrest => rw [hr] at h; exact Except.noConfusion h
        · rw [if_neg ht] at h
          injection h with h
          exact ⟨_, h.symm⟩
/-- A declared parameter that is required, has no default and is not supplied
forces the schema loop to fail. -/
theorem normaliseParams_missing_required (vn : String) (idx : ℕ) (c : String)
    (ps : Params) :
    ∀ (schema : Schema) (pname : String) (meta : ParamMeta),
      (pname, meta) ∈ schema → meta.required = true →
      meta.default.isNoneV = true → lookupParam ps pname = Option.none →
      ∃ e, normaliseParams vn idx c ps schema = .error e := by
  intro schema
  induction schema with
  | nil => intro p m hm; simp at hm
  | cons hd rest ih =>
    intro pname meta hmem hreq hdef hlook
    obtain ⟨qname, qmeta⟩ := hd
    simp only [normaliseParams]
    cases hl : lookupParam ps qname with
    | some v =>
      simp only []
      by_cases ht : typeCheckOk v qmeta.ty = true
      · rw [if_pos ht]
        have htail : (pname, meta) ∈ rest := by
          rcases List.mem_cons.mp hmem with heq | htail
          · injection heq with he1 he2
            subst he1
            rw [hlook] at hl
            exact Option.noConfusion hl
          · exact htail
        obtain ⟨e, he⟩ := ih pname meta htail hreq hdef hlook
        rw [he]
        exact ⟨e, rfl⟩
      · rw [if_neg ht]
        exact ⟨_, rfl⟩
    | none =>
      simp only []
      by_cases hreq2 : (qmeta.required && qmeta.default.isNoneV) = true
      · rw [if_pos hreq2]
        exact ⟨_, rfl⟩
      · rw [if_neg hreq2]
        simp only []
        by_cases ht : typeCheckOk qmeta.default qmeta.ty = true
        · rw [if_pos ht]
          have htail : (pname, meta) ∈ rest := by
            rcases List.mem_cons.mp hmem with heq | htail
            · injection heq with he1 he2
              subst he1
              subst he2
              rw [hreq, hdef] at hreq2
              simp at hreq2
            · exact htail
          obtain ⟨e, he⟩ := ih pname meta htail hreq hdef hlook
          rw [he]
          exact ⟨e, rfl⟩
        · rw [if_neg ht]
          exact ⟨_, rfl⟩

/-- When every schema entry before the first missing-required parameter takes
a type-correct value, the schema loop reports exactly that parameter's
missing-required error (with the validator name, entry index and column). -/
theorem normaliseParams_first_missing (vn : String) (idx : ℕ) (c : String)
    (ps : Params) :
    ∀ (pre post : Schema) (pname : String) (meta : ParamMeta),
      meta.required = true → meta.default.isNoneV = true →
      lookupParam ps pname = Option.none →
      (∀ q qm, (q, qm) ∈ pre →
        (match lookupParam ps q with
         | some v => typeCheckOk v qm.ty = true
         | Option.none => (qm.required && qm.default.isNoneV) = false ∧
             typeCheckOk qm.default qm.ty = true)) →
      normaliseParams vn idx c ps (pre ++ (pname, meta) :: post) =
        .error (.invalidConfig (.missingRequired pname vn idx c)) := by
  intro pre
  induction pre with
  | nil =>
    intro post pname meta hreq hdef hlook _
    simp only [List.nil_append, normaliseParams, hlook, hreq, hdef,
      Bool.and_self, if_true]
  | cons hd pre2 ih =>
    intro post pname meta hreq hdef hlook hpre
    obtain ⟨qname, qmeta⟩ := hd
    have hq := hpre qname qmeta (List.mem_cons_self _ _)
    have htail := ih post pname meta hreq hdef hlook
      (fun q qm hqm => hpre q qm (List.mem_cons_of_mem _ hqm))
    simp only [List.cons_append, normaliseParams]
    cases hl : lookupParam ps qname with
    | some v =>
      rw [hl] at hq
      simp only [] at hq
      simp only []
      rw [if_pos hq]
      simp only [List.append_eq]
      rw [htail]
    | none =>
      rw [hl] at hq
      simp only [] at hq
      obtain ⟨hq1, hq2⟩ := hq
      simp only []
      rw [if_neg (by rw [hq1]; exact Bool.false_ne_true)]
      simp only []
      rw [if_pos hq2]
      simp only [List.append_eq]
      rw [htail]

/-- Claim C3: an entry that passes loading has normalized params whose key
list is exactly the referenced validator's schema key list (defaults filled
for absent parameters, every supplied key declared); an undeclared supplied
parameter, and a required parameter with no default that is absent, each make
loading fail with a configuration error — the latter citing the parameter
name, the validator, the entry index and the column when it is the first
schema entry to fail. -/
theorem config_normalisation_exact_keys :
    (∀ (reg : String → Option RegisteredValidator) (idx : ℕ) (e : RawEntry)
      (spec : ValidationSpec), normaliseEntry reg idx e = .ok spec →
      ∃ vn rv, e.validator = some vn ∧ reg vn = some rv ∧
        spec.params.map Prod.fst = rv.schema.map Prod.fst ∧
        (∀ pname meta, (pname, meta) ∈ rv.schema →
          lookupParam e.params pname = Option.none →
          (pname, meta.default) ∈ spec.params) ∧
        (∀ k ∈ e.params.map Prod.fst, k ∈ rv.schema.map Prod.fst)) ∧
    (∀ (reg : String → Option RegisteredValidator) (idx : ℕ) (e : RawEntry)
      (c vn : String) (rv : RegisteredValidator) (k : String),
      e.column = some c → e.validator = some vn → reg vn = some rv →
      k ∈ e.params.map Prod.fst → ¬ k ∈ rv.schema.map Prod.fst →
      ∃ cf, normaliseEntry reg idx e = .error (.invalidConfig cf)) ∧
    (∀ (reg : String → Option RegisteredValidator) (idx : ℕ) (e : RawEntry)
      (c vn : String) (rv : RegisteredValidator) (pname : String)
      (meta : ParamMeta),
      e.column = some c → e.validator = some vn → reg vn = some rv →
      (pname, meta) ∈ rv.schema → meta.required = true →
      meta.default.isNoneV = true → lookupParam e.params pname = Option.none →
      ∃ cf, normaliseEntry reg idx e = .error (.invalidConfig cf)) ∧
    (∀ (reg : String → Option RegisteredValidator) (idx : ℕ) (e : RawEntry)
      (c vn : String) (rv : RegisteredValidator) (pre post : Schema)
      (pname : String) (meta : ParamMeta),
      e.column = some c → e.validator = some vn → reg vn = some rv →
      rv.schema = pre ++ (pname, meta) :: post →
      meta.required = true → meta.default.isNoneV = true →
      lookupParam e.params pname = Option.none →
      (∀ q qm, (q, qm) ∈ pre →
        (match lookupParam e.params q with
         | some v => typeCheckOk v qm.ty = true
         | Option.none => (qm.required && qm.default.isNoneV) = false ∧
             typeCheckOk qm.default qm.ty = true)) →
      normaliseEntry reg idx e =
        .error (.invalidConfig (.missingRequired pname vn idx c))) := by
  refine ⟨?_, ?_, ?_, ?_⟩
  · intro reg idx e spec h
    obtain ⟨col, val, eps⟩ := e
    cases col with
    | none => exact Except.noConfusion h
    | some c =>
      cases val with
      | none => exact Except.noConfusion h
      | some vn =>
        simp only [normaliseEntry] at h
        cases hr : reg vn with
        | none => rw [hr] at h; exact Except.noConfusion h
        | some rv =>
          rw [hr] at h
          simp only [] at h
          cases hn : normaliseParams vn idx c eps rv.schema with
          | error e2 => rw [hn] at h; exact Except.noConfusion h
          | ok nps =>
            rw [hn] at h
            simp only [] at h
            cases hu : firstUnknownParam rv.schema eps with
            | some bad => rw [hu] at h; exact Except.noConfusion h
            | none =>
              rw [hu] at h
              simp only [] at h
              injection h with h
              subst h
              obtain ⟨hk, hdef⟩ := normaliseParams_ok_keys vn idx c eps rv.schema nps hn
              refine ⟨vn, rv, rfl, hr, hk, hdef, ?_⟩
              intro k hkmem
              have := List.find?_eq_none.mp hu k hkmem
              simp only [Bool.not_eq_true', Bool.not_eq_false] at this
              obtain ⟨q, hq, hqk⟩ := List.any_eq_true.mp this
              rw [List.mem_map]
              exact ⟨q, hq, by simpa using hqk⟩
  · intro reg idx e c vn rv k hc hv hr hkmem hknot
    obtain ⟨col, val, eps⟩ := e
    simp only at hc hv hkmem
    subst hc
    subst hv
    simp only [normaliseEntry, hr]
    cases hn : normaliseParams vn idx c eps rv.schema with
    | error e2 =>
      obtain ⟨cf, hcf⟩ := normaliseParams_error_invalid vn idx c eps rv.schema e2 hn
      subst hcf
      exact ⟨cf, rfl⟩
    | ok nps =>
      simp only []
      cases hu : firstUnknownParam rv.schema eps with
      | some bad => exact ⟨.unknownParam bad vn idx, rfl⟩
      | none =>
        exfalso
        have := List.find?_eq_none.mp hu k hkmem
        simp only [Bool.not_eq_true', Bool.not_eq_false] at this
        obtain ⟨q, hq, hqk⟩ := List.any_eq_true.mp this
        apply hknot
        rw [List.mem_map]
        exact ⟨q, hq, by simpa using hqk⟩
  · intro reg idx e c vn rv pname meta hc hv hr hmem hreq hdef hlook
    obtain ⟨col, val, eps⟩ := e
    simp only at hc hv hlook
    subst hc
    subst hv
    simp only [normaliseEntry, hr]
    cases hn : normaliseParams vn idx c eps rv.schema with
    | error e2 =>
      obtain ⟨cf, hcf⟩ := normaliseParams_error_invalid vn idx c eps rv.schema e2 hn
      subst hcf
      exact ⟨cf, rfl⟩
    | ok nps =>
      exfalso
      obtain ⟨e3, he3⟩ := normaliseParams_missing_required vn idx c eps rv.schema
        pname meta hmem hreq hdef hlook
      rw [hn] at he3
      exact Except.noConfusion he3
  · intro reg idx e c vn rv pre post pname meta hc hv hr hschema hreq hdef hlook hpre
    obtain ⟨col, val, eps⟩ := e
    simp only at hc hv hlook hpre
    subst hc
    subst hv
    simp only [normaliseEntry, hr]
    have := normaliseParams_first_missing vn idx c eps pre post pname meta
      hreq hdef hlook hpre
    rw [← hschema] at this
    rw [this]

/-- Witness for claim C3 at a concrete input: loading a regex entry with no
`pattern` fails citing the parameter name, validator, entry index and
column. -/
theorem config_normalisation_exact_keys_witness :
    normaliseEntry builtinRegistry 0 ⟨some "word", some "regex", []⟩ =
      .error (.invalidConfig (.missingRequired "pattern" "regex" 0 "word")) :=
  config_normalisation_exact_keys.2.2.2 builtinRegistry 0
    ⟨some "word", some "regex", []⟩ "word" "regex"
    ⟨regexSchema, fun ps =>
      .vRegex (getStrParam ps "pattern") (getBoolParam ps "case_sensitive" true)⟩
    [] [("case_sensitive", ⟨some (.single .pyBool), .bool true, false⟩)]
    "pattern" ⟨some (.single .pyStr), .none, true⟩
    rfl rfl rfl rfl rfl rfl rfl (by intro q qm hq; simp at hq)

/-- Claim C4: a structurally well-formed entry whose validator name is not in
the registry makes the loader fail with the distinct unknown-validator error
(never the generic configuration error), both per entry and — when the
preceding entries load — for the whole list at the first unresolvable index;
pipeline construction likewise fails fail-fast with the unknown-validator
error at the first unresolvable entry. -/
theorem unknown_validator_distinct_error :
    (∀ (reg : String → Option RegisteredValidator) (idx : ℕ) (e : RawEntry)
      (c vn : String), e.column = some c → e.validator = some vn →
      reg vn = Option.none →
      normaliseEntry reg idx e = .error (.unknownValidator vn idx)) ∧
    (∀ (reg : String → Option RegisteredValidator) (entries : List RawEntry)
      (k i : ℕ) (e : RawEntry) (c vn : String),
      entries.get? i = some e → e.column = some c → e.validator = some vn →
      reg vn = Option.none →
      (∀ j e2, j < i → entries.get? j = some e2 →
        (normaliseEntry reg (k + j) e2).isOk = true) →
      normaliseEntriesFrom reg k entries = .error (.unknownValidator vn (k + i))) ∧
    (∀ (reg : String → Option RegisteredValidator) (entries : List RawEntry)
      (k i : ℕ) (e : RawEntry) (c vn : String),
      entries.get? i = some e → e.column = some c → e.validator = some vn →
      reg vn = Option.none →
      (∀ j e2, j < i → entries.get? j = some e2 →
        ∃ c2 vn2 rv, e2.column = some c2 ∧ e2.validator = some vn2 ∧
          reg vn2 = some rv) →
      pipelineInitFrom reg k entries = .error (.unknownValidator vn (k + i))) := by
  have entry_case : ∀ (reg : String → Option RegisteredValidator) (idx : ℕ)
      (e : RawEntry) (c vn : String), e.column = some c → e.validator = some vn →
      reg vn = Option.none →
      normaliseEntry reg idx e = .error (.unknownValidator vn idx) := by
    intro reg idx e c vn hc hv hr
    obtain ⟨col, val, eps⟩ := e
    simp only at hc hv
    subst hc
    subst hv
    simp only [normaliseEntry, hr]
  refine ⟨entry_case, ?_, ?_⟩
  · intro reg entries
    induction entries with
    | nil => intro k i e c vn hs; simp at hs
    | cons hd rest ih =>
      intro k i e c vn hs hc hv hr hpre
      cases i with
      | zero =>
        simp only [List.get?_cons_zero, Option.some.injEq] at hs
        subst hs
        rw [Nat.add_zero]
        simp only [normaliseEntriesFrom, entry_case reg k hd c vn hc hv hr]
      | succ j =>
        simp only [List.get?_cons_succ] at hs
        have hhd := hpre 0 hd (Nat.succ_pos j) rfl
        rw [Nat.add_zero] at hhd
        cases hn : normaliseEntry reg k hd with
        | error e2 => rw [hn] at hhd; simp [Except.isOk, Except.toBool] at hhd
        | ok spec =>
          have hrest := ih (k + 1) j e c vn hs hc hv hr ?_
          · simp only [normaliseEntriesFrom, hn, hrest]
            have : k + 1 + j = k + (j + 1) := by omega
            rw [this]
          · intro j2 e2 hj2 he2
            have := hpre (j2 + 1) e2 (by omega) (by simpa using he2)
            have harith : k + (j2 + 1) = k + 1 + j2 := by omega
            rw [harith] at this
            exact this
  · intro reg entries
    induction entries with
    | nil => intro k i e c vn hs; simp at hs
    | cons hd rest ih =>
      intro k i e c vn hs hc hv hr hpre
      cases i with
      | zero =>
        simp only [List.get?_cons_zero, Option.some.injEq] at hs
        subst hs
        obtain ⟨col, val, eps⟩ := hd
        simp only at hc hv
        subst hc
        subst hv
        rw [Nat.add_zero]
        simp only [pipelineInitFrom, hr]
      | succ j =>
        simp only [List.get?_cons_succ] at hs
        obtain ⟨c2, vn2, rv, hdc, hdv, hdr⟩ := hpre 0 hd (Nat.succ_pos j) rfl
        have hrest := ih (k + 1) j e c vn hs hc hv hr ?_
        · obtain ⟨col, val, eps⟩ := hd
          simp only at hdc hdv
          subst hdc
          subst hdv
          simp only [pipelineInitFrom, hdr, hrest]
          have : k + 1 + j = k + (j + 1) := by omega
          rw [this]
        · intro j2 e2 hj2 he2
          exact hpre (j2 + 1) e2 (by omega) (by simpa using he2)

/-- Witness for claim C4 at a concrete input: a list whose first entry loads
and whose second names the unregistered validator `"bogus"` fails — in both
the loader and pipeline construction — with the unknown-validator error at
index 1. -/
theorem unknown_validator_distinct_error_witness :
    normaliseEntriesFrom builtinRegistry 0
      [⟨some "num", some "range", []⟩, ⟨some "x", some "bogus", []⟩] =
      .error (.unknownValidator "bogus" 1) ∧
    pipelineInitFrom builtinRegistry 0
      [⟨some "num", some "range", []⟩, ⟨some "x", some "bogus", []⟩] =
      .error (.unknownValidator "bogus" 1) := by
  constructor
  · exact unknown_validator_distinct_error.2.1 builtinRegistry
      [⟨some "num", some "range", []⟩, ⟨some "x", some "bogus", []⟩]
      0 1 ⟨some "x", some "bogus", []⟩ "x" "bogus" rfl rfl rfl rfl
      (by
        intro j e2 hj he2
        have hj0 : j = 0 := by omega
        subst hj0
        simp only [List.get?_cons_zero, Option.some.injEq] at he2
        rw [← he2]
        rfl)
  · exact unknown_validator_distinct_error.2.2 builtinRegistry
      [⟨some "num", some "range", []⟩, ⟨some "x", some "bogus", []⟩]
      0 1 ⟨some "x", some "bogus", []⟩ "x" "bogus" rfl rfl rfl rfl
      (by
        intro j e2 hj he2
        have hj0 : j = 0 := by omega
        subst hj0
        simp only [List.get?_cons_zero, Option.some.injEq] at he2
        exact ⟨"num", "range", _, by rw [← he2], by rw [← he2], rfl⟩)
